import Mathlib

/-!
Shallow embedding of the VanillaML repository (mlp_classifier.py and
util/misc.py) together with proofs of the specification claims.

Conventions of the embedding:
- numpy float arrays are modelled over the rationals (misc.py activates true
  division via the future-division import) or over the reals where the claim
  is about exp/log identities;
- mlp_classifier.py has no future-division import, so its integer division
  `n_samples / self.batch_size` is Python 2 floor division, Nat division here;
- a Python call that can raise returns `Except Err`; an `assert` statement
  becomes an `Err.assertionError` branch;
- the process-global numpy random generator is modelled by passing the drawn
  values (a permutation, a matrix of draws) explicitly: the embedding only
  relies on their contracts, e.g. `np.random.permutation(n)` returning a
  permutation of `range n`.
-/

namespace VanillaML

/-- Errors a modelled Python call can raise. -/
inductive Err where
  | assertionError (msg : String)
  | exception (msg : String)
  | typeError (msg : String)
deriving DecidableEq, Repr

/-- True when the modelled call raised instead of returning. -/
def raises {α : Type} : Except Err α → Bool
  | .error _ => true
  | .ok _ => false

/-! ### misc.get_penalty -/

/-- Embedding of misc.get_penalty: the assert on the factor runs first, then
the penalty type is dispatched; l2 returns `2 * factor * w` elementwise. -/
def get_penalty (w : List ℚ) (factor : ℚ) (penalty : String) : Except Err (List ℚ) :=
  if ¬ factor > 0 then
    .error (.assertionError "The penalty factor must be positive.")
  else if penalty = "l1" then
    .error (.exception "L1 penalty is not supported yet!")
  else if penalty = "l2" then
    .ok (w.map (fun x => 2 * factor * x))
  else
    .error (.exception "The penalty is not supported!")

/-! ### misc.label_to_sign / misc.sign_to_label -/

/-- Embedding of misc.label_to_sign: `2 * y - 1` elementwise. -/
def label_to_sign (y : ℚ) : ℚ := 2 * y - 1

/-- Embedding of misc.sign_to_label: `(y + 1) / 2` elementwise (true division,
misc.py imports future division). -/
def sign_to_label (y : ℚ) : ℚ := (y + 1) / 2

/-! ### MLPClassifier.fit: the mini-batch schedule -/

/-- Python slice `l[a:b]` for a list. -/
def pySlice {α : Type} (l : List α) (a b : ℕ) : List α := (l.take b).drop a

/-- Embedding of one batch of indices in MLPClassifier.fit:
`indices[it*batch_size : min((it+1)*batch_size, n_samples)]`
where `indices = np.arange(n_samples)`. -/
def batchIndices (n_samples batch_size it : ℕ) : List ℕ :=
  pySlice (List.range n_samples) (it * batch_size) (min ((it + 1) * batch_size) n_samples)

/-- Embedding of the per-epoch batch schedule of MLPClassifier.fit: the loop
`for it in range(n_samples / self.batch_size)` (Python 2 floor division, the
module has no future-division import). -/
def epochBatches (n_samples batch_size : ℕ) : List (List ℕ) :=
  (List.range (n_samples / batch_size)).map (batchIndices n_samples batch_size)

/-! ### MLPClassifier construction and fit entry validation -/

/-- Hyperparameter record stored by MLPClassifier.__init__ on success. -/
structure MLPConfig where
  layers : List ℕ
  fit_bias : Bool
  learning_rate : ℚ
  batch_size : ℕ
  n_epochs : ℕ
  tol : ℚ
  verbose : Bool
  random_state : ℕ
deriving DecidableEq, Repr

/-- Embedding of MLPClassifier.__init__: asserts a positive learning rate and
that bias fitting is off before storing the hyperparameters. -/
def MLPClassifier_init (layers : List ℕ) (fit_bias : Bool) (learning_rate : ℚ)
    (batch_size n_epochs : ℕ) (tol : ℚ) (verbose : Bool) (random_state : ℕ) :
    Except Err MLPConfig :=
  if ¬ learning_rate > 0 then
    .error (.assertionError "Learning rate must be positive.")
  else if fit_bias then
    .error (.assertionError "fit_bias is not supported.")
  else
    .ok ⟨layers, fit_bias, learning_rate, batch_size, n_epochs, tol, verbose, random_state⟩

/-- Embedding of np.unique: the distinct values of y in ascending order. -/
def np_unique (y : List ℤ) : List ℤ := (y.dedup).insertionSort (· ≤ ·)

lemma np_unique_nodup (y : List ℤ) : (np_unique y).Nodup := by
  unfold np_unique
  exact (List.perm_insertionSort _ _).symm.nodup (List.nodup_dedup y)

lemma np_unique_mem (y : List ℤ) (a : ℤ) : a ∈ np_unique y ↔ a ∈ y := by
  unfold np_unique
  rw [(List.perm_insertionSort _ _).mem_iff, List.mem_dedup]

lemma np_unique_sorted_lt (y : List ℤ) : List.Sorted (· < ·) (np_unique y) := by
  have hs : List.Sorted (· ≤ ·) (np_unique y) := List.sorted_insertionSort _ _
  exact hs.lt_of_le (np_unique_nodup y)

/-- Modelled from the spec: the network engine behind MLPClassifier.fit.
The modules vanilla_ml.base.neural_network.{activators, containers, layers,
loss} are not in the repository; per the spec, building the model draws the
initial parameters from the freshly seeded global generator (deterministic in
the seed), and each batch step (fprop, loss.fprop, loss.bprop, bprop, update)
deterministically transforms the model. -/
structure Engine (Model : Type) where
  build : ℕ → ℕ → List ℕ → ℕ → Model
  step : Model → List (List ℚ) → List ℤ → Model
  fprop : Model → List (List ℚ) → List (List ℚ)

/-- Mutable attributes of an MLPClassifier instance that fit reassigns. -/
structure MLPState (Model : Type) where
  classes : Option (List ℤ)
  model : Option Model
deriving DecidableEq, Repr

/-- Embedding of MLPClassifier.fit: validate sample_weights and the X/y
lengths, reseed the global generator with random_state, store the ascending
unique classes, rebuild the model from scratch with _build_model, then run
the SGD epoch/batch loops. The previous state st is ignored apart from being
replaced. -/
def MLPClassifier_fit {Model : Type} (eng : Engine Model) (cfg : MLPConfig)
    (st : MLPState Model) (X : List (List ℚ)) (y : List ℤ)
    (sample_weights : Option (List ℚ)) : Except Err (MLPState Model) :=
  if sample_weights ≠ none then
    .error (.assertionError "Specifying sample weights is not supported!")
  else if X.length ≠ y.length then
    .error (.assertionError "Length mismatches")
  else
    let n_samples := X.length
    let n_features := (X.headD []).length
    let classes := np_unique y
    let n_classes := classes.length
    let model0 := eng.build cfg.random_state n_features cfg.layers n_classes
    let finalModel := (List.range cfg.n_epochs).foldl
      (fun m _ =>
        (epochBatches n_samples cfg.batch_size).foldl
          (fun m batch =>
            eng.step m (batch.map (fun i => X.getD i [])) (batch.map (fun i => y.getD i 0)))
          m)
      model0
    .ok { classes := some classes, model := some finalModel }

/-- Embedding of MLPClassifier.predict_proba: `self.model.fprop(X)`; on an
unfitted classifier the model attribute is still None and the call raises. -/
def MLPClassifier_predict_proba {Model : Type} (eng : Engine Model)
    (st : MLPState Model) (X : List (List ℚ)) : Except Err (List (List ℚ)) :=
  match st.model with
  | none => .error (.typeError "NoneType object has no attribute fprop")
  | some m => .ok (eng.fprop m X)

/-! ### Theorems -/

/-- C7: get_penalty returns `2 * factor * w` for the l2 penalty when the
factor is positive, raises for every other penalty value including l1, and
raises an assertion error whenever the factor is not positive. -/
theorem get_penalty_spec (w : List ℚ) (factor : ℚ) (penalty : String) :
    (0 < factor →
      get_penalty w factor "l2" = .ok (w.map (fun x => 2 * factor * x)) ∧
      raises (get_penalty w factor "l1") = true ∧
      (penalty ≠ "l2" → raises (get_penalty w factor penalty) = true)) ∧
    (factor ≤ 0 →
      get_penalty w factor penalty =
        .error (.assertionError "The penalty factor must be positive.")) := by
  constructor
  · intro hf
    refine ⟨?_, ?_, ?_⟩
    · simp [get_penalty, not_lt.mpr, hf]
    · simp [get_penalty, hf, raises]
    · intro hp
      by_cases hl1 : penalty = "l1" <;> simp [get_penalty, hf, hp, hl1, raises]
  · intro hf
    simp [get_penalty, not_lt.mpr hf]

/-- Witness for C7 at concrete inputs. -/
theorem get_penalty_spec_witness :
    (0 < (1 : ℚ) ∧
      get_penalty [3] 1 "l2" = .ok ([3].map (fun x => 2 * 1 * x)) ∧
      raises (get_penalty [3] 1 "l1") = true ∧
      raises (get_penalty [3] 1 "huber") = true) ∧
    ((-2 : ℚ) ≤ 0 ∧
      get_penalty [3] (-2) "l2" =
        .error (.assertionError "The penalty factor must be positive.")) := by
  refine ⟨⟨by norm_num, ?_, ?_, ?_⟩, ⟨by norm_num, ?_⟩⟩
  · exact ((get_penalty_spec [3] 1 "huber").1 (by norm_num)).1
  · exact ((get_penalty_spec [3] 1 "huber").1 (by norm_num)).2.1
  · exact ((get_penalty_spec [3] 1 "huber").1 (by norm_num)).2.2 (by decide)
  · exact (get_penalty_spec [3] (-2) "l2").2 (by norm_num)

/-- C8: sign_to_label inverts label_to_sign exactly, label_to_sign maps 0 to
-1 and 1 to 1, and sign_to_label maps -1 to 0 and 1 to 1. -/
theorem sign_label_round_trip :
    (∀ y : ℚ, sign_to_label (label_to_sign y) = y) ∧
    label_to_sign 0 = -1 ∧ label_to_sign 1 = 1 ∧
    sign_to_label (-1) = 0 ∧ sign_to_label 1 = 1 := by
  refine ⟨fun y => ?_, by norm_num [label_to_sign], by norm_num [label_to_sign],
    by norm_num [sign_to_label], by norm_num [sign_to_label]⟩
  unfold sign_to_label label_to_sign
  ring

/-- C1: with n_samples = 15 and batch_size = 10 the epoch loop of
MLPClassifier.fit visits only the first 10 indices; the final short batch of
5 samples required by the spec is never formed because the loop bound uses
floor division. -/
theorem fit_batches_drop_remainder :
    (epochBatches 15 10).flatten = List.range 10 ∧
    (epochBatches 15 10).flatten ≠ List.range 15 := by decide

/-- C2: MLPClassifier.__init__ rejects a non-positive learning rate and
fit_bias = true, and the entry of fit rejects every non-None sample_weights
and every X/y length mismatch, each before any training step. -/
theorem mlp_invalid_config_rejected {Model : Type} (eng : Engine Model)
    (cfg : MLPConfig) (st : MLPState Model)
    (layers : List ℕ) (fit_bias : Bool) (learning_rate : ℚ)
    (batch_size n_epochs : ℕ) (tol : ℚ) (verbose : Bool) (random_state : ℕ)
    (X : List (List ℚ)) (y : List ℤ) (sw : Option (List ℚ)) :
    (learning_rate ≤ 0 →
      MLPClassifier_init layers fit_bias learning_rate batch_size n_epochs tol
          verbose random_state =
        .error (.assertionError "Learning rate must be positive.")) ∧
    (0 < learning_rate → fit_bias = true →
      MLPClassifier_init layers fit_bias learning_rate batch_size n_epochs tol
          verbose random_state =
        .error (.assertionError "fit_bias is not supported.")) ∧
    (sw ≠ none →
      MLPClassifier_fit eng cfg st X y sw =
        .error (.assertionError "Specifying sample weights is not supported!")) ∧
    (X.length ≠ y.length →
      MLPClassifier_fit eng cfg st X y none =
        .error (.assertionError "Length mismatches")) := by
  refine ⟨fun hlr => ?_, fun hlr hb => ?_, fun hsw => ?_, fun hxy => ?_⟩
  · simp [MLPClassifier_init, not_lt.mpr hlr]
  · simp [MLPClassifier_init, hlr, hb]
  · simp [MLPClassifier_fit, hsw]
  · simp [MLPClassifier_fit, hxy]

/-- Witness for C2 at concrete inputs. -/
theorem mlp_invalid_config_rejected_witness :
    ((0 : ℚ) ≤ 0 ∧
      MLPClassifier_init [4] false 0 10 50 (1 / 100000) true 42 =
        .error (.assertionError "Learning rate must be positive.")) ∧
    (MLPClassifier_init [4] true 1 10 50 (1 / 100000) true 42 =
      .error (.assertionError "fit_bias is not supported.")) ∧
    (MLPClassifier_fit ⟨fun s _ _ _ => s, fun m _ _ => m, fun _ X => X⟩
        ⟨[4], false, 1, 10, 50, 1 / 100000, true, 42⟩ ⟨none, none⟩
        [[1]] [0] (some []) =
      .error (.assertionError "Specifying sample weights is not supported!")) ∧
    (MLPClassifier_fit ⟨fun s _ _ _ => s, fun m _ _ => m, fun _ X => X⟩
        ⟨[4], false, 1, 10, 50, 1 / 100000, true, 42⟩ ⟨none, none⟩
        [[1], [2]] [0] none =
      .error (.assertionError "Length mismatches")) := by
  refine ⟨⟨le_refl 0, ?_⟩, ?_, ?_, ?_⟩
  · exact (mlp_invalid_config_rejected ⟨fun s _ _ _ => s, fun m _ _ => m, fun _ X => X⟩
      ⟨[4], false, 1, 10, 50, 1 / 100000, true, 42⟩ ⟨none, none⟩
      [4] false 0 10 50 (1 / 100000) true 42 [[1]] [0] none).1 (le_refl 0)
  · exact ((mlp_invalid_config_rejected ⟨fun s _ _ _ => s, fun m _ _ => m, fun _ X => X⟩
      ⟨[4], false, 1, 10, 50, 1 / 100000, true, 42⟩ ⟨none, none⟩
      [4] true 1 10 50 (1 / 100000) true 42 [[1]] [0] none).2.1 (by norm_num)) rfl
  · exact (mlp_invalid_config_rejected ⟨fun s _ _ _ => s, fun m _ _ => m, fun _ X => X⟩
      ⟨[4], false, 1, 10, 50, 1 / 100000, true, 42⟩ ⟨none, none⟩
      [4] false 1 10 50 (1 / 100000) true 42 [[1]] [0] (some [])).2.2.1 (by decide)
  · exact (mlp_invalid_config_rejected ⟨fun s _ _ _ => s, fun m _ _ => m, fun _ X => X⟩
      ⟨[4], false, 1, 10, 50, 1 / 100000, true, 42⟩ ⟨none, none⟩
      [4] false 1 10 50 (1 / 100000) true 42 [[1], [2]] [0] none).2.2.2 (by decide)

/-- Modelled from the spec: np.argmax over one row, returning the index of
the first maximum (predict derives labels as the arg-max class per row). -/
def np_argmax_go : List ℚ → ℕ → ℕ → ℚ → ℕ
  | [], _, best, _ => best
  | x :: xs, i, best, bv =>
      if bv < x then np_argmax_go xs (i + 1) i x else np_argmax_go xs (i + 1) best bv

/-- Index of the first maximum of a row, 0 on the empty row. -/
def np_argmax : List ℚ → ℕ
  | [] => 0
  | x :: xs => np_argmax_go xs 1 0 x

/-- Modelled from the spec: predict maps the arg-max column of each
predict_proba row through the class list discovered by fit (the
AbstractClassifier source is not in the repository). -/
def MLPClassifier_predict (classes : List ℤ) (proba : List (List ℚ)) : List ℤ :=
  proba.map (fun row => classes.getD (np_argmax row) 0)

lemma np_argmax_go_lt (xs : List ℚ) :
    ∀ i best bv, best < i → np_argmax_go xs i best bv < i + xs.length := by
  induction xs with
  | nil =>
      intro i best bv h
      simpa [np_argmax_go] using h
  | cons x xs ih =>
      intro i best bv h
      simp only [np_argmax_go, List.length_cons]
      split
      · have := ih (i + 1) i x (by omega)
        omega
      · have := ih (i + 1) best bv (by omega)
        omega

lemma np_argmax_lt (row : List ℚ) (h : row ≠ []) : np_argmax row < row.length := by
  cases row with
  | nil => exact absurd rfl h
  | cons x xs =>
      have := np_argmax_go_lt xs 1 0 x (by omega)
      simp only [np_argmax, List.length_cons]
      omega

/-- C4: fit is a function of the configuration and the data only: starting
from any two previous states (fresh or already fitted) it reseeds, rebuilds
the model and produces the same result, hence identical final parameters and
identical subsequent predictions. -/
theorem fit_deterministic_restart {Model : Type} (eng : Engine Model)
    (cfg : MLPConfig) (stA stB : MLPState Model)
    (X Xnew : List (List ℚ)) (y : List ℤ) :
    MLPClassifier_fit eng cfg stA X y none = MLPClassifier_fit eng cfg stB X y none ∧
    (∀ rA rB, MLPClassifier_fit eng cfg stA X y none = .ok rA →
      MLPClassifier_fit eng cfg stB X y none = .ok rB →
      rA = rB ∧
      MLPClassifier_predict_proba eng rA Xnew = MLPClassifier_predict_proba eng rB Xnew) := by
  refine ⟨rfl, fun rA rB hA hB => ?_⟩
  have hr : rA = rB := by
    have := hA.symm.trans hB
    exact Except.ok.inj this
  exact ⟨hr, by rw [hr]⟩

/-- Witness for C4: an unfitted state and an already fitted state yield the
same fit result under a concrete engine. -/
theorem fit_deterministic_restart_witness :
    (⟨some [0], some 42⟩ : MLPState ℕ) = ⟨some [0], some 42⟩ ∧
    MLPClassifier_predict_proba (⟨fun s _ _ _ => s, fun m _ _ => m + 1, fun _ X => X⟩ : Engine ℕ)
        ⟨some [0], some 42⟩ [[5]] =
      MLPClassifier_predict_proba (⟨fun s _ _ _ => s, fun m _ _ => m + 1, fun _ X => X⟩ : Engine ℕ)
        ⟨some [0], some 42⟩ [[5]] :=
  (fit_deterministic_restart (⟨fun s _ _ _ => s, fun m _ _ => m + 1, fun _ X => X⟩ : Engine ℕ)
      ⟨[4], false, 1, 10, 0, 1 / 100000, true, 42⟩ ⟨none, none⟩ ⟨some [9], some 7⟩
      [[1]] [[5]] [0]).2 ⟨some [0], some 42⟩ ⟨some [0], some 42⟩ rfl rfl

/-- C5: the classes stored by fit are the distinct values of y in strictly
ascending order, this order is the index-to-label mapping used by predict,
and predict only returns labels from that class list. -/
theorem classes_ascending_predict_in_classes (y : List ℤ) (proba : List (List ℚ)) :
    List.Sorted (· < ·) (np_unique y) ∧
    (np_unique y).Nodup ∧
    (∀ a, a ∈ np_unique y ↔ a ∈ y) ∧
    (y ≠ [] → (∀ row ∈ proba, row.length = (np_unique y).length) →
      ∀ l ∈ MLPClassifier_predict (np_unique y) proba, l ∈ np_unique y) := by
  refine ⟨np_unique_sorted_lt y, np_unique_nodup y, np_unique_mem y, ?_⟩
  · intro hy hrows l hl
    rcases List.mem_map.mp hl with ⟨row, hrow, hval⟩
    have hne : np_unique y ≠ [] := by
      rcases List.exists_mem_of_ne_nil y hy with ⟨a, ha⟩
      intro hcon
      have : a ∈ np_unique y := (np_unique_mem y a).mpr ha
      simp [hcon] at this
    have hrowlen : row.length = (np_unique y).length := hrows row hrow
    have hrowne : row ≠ [] := by
      intro hcon
      apply hne
      have : (np_unique y).length = 0 := by
        rw [← hrowlen, hcon]
        rfl
      exact List.eq_nil_of_length_eq_zero this
    have hidx : np_argmax row < (np_unique y).length := by
      rw [← hrowlen]
      exact np_argmax_lt row hrowne
    rw [← hval]
    rw [List.getD_eq_get? ]
    rw [List.get?_eq_get hidx]
    exact List.get_mem _ _ _

/-- Witness for C5 at concrete inputs. -/
theorem classes_ascending_predict_in_classes_witness :
    List.Sorted (· < ·) (np_unique [2, 0, 2]) ∧
    (np_unique [2, 0, 2]).Nodup ∧
    (∀ a, a ∈ np_unique [2, 0, 2] ↔ a ∈ [2, 0, 2]) ∧
    (∀ l ∈ MLPClassifier_predict (np_unique [2, 0, 2]) [[(1 : ℚ), 5]],
      l ∈ np_unique [2, 0, 2]) := by
  have h := classes_ascending_predict_in_classes [2, 0, 2] [[(1 : ℚ), 5]]
  exact ⟨h.1, h.2.1, h.2.2.1, h.2.2.2 (by decide) (by decide)⟩

/-! ### misc.softmax over the reals -/

/-- Embedding of `X.max(axis=1)` for an N x (K + 1) matrix: numpy requires a
nonempty reduction axis, so the column count is K + 1. -/
noncomputable def rowMax {n K : ℕ} (X : Fin n → Fin (K + 1) → ℝ) (i : Fin n) : ℝ :=
  Finset.univ.sup' Finset.univ_nonempty (X i)

/-- Embedding of misc.log_sum_exp: `max_X + log(sum(exp(X - max_X[:, None]), axis=1))`. -/
noncomputable def log_sum_exp {n K : ℕ} (X : Fin n → Fin (K + 1) → ℝ) (i : Fin n) : ℝ :=
  rowMax X i + Real.log (∑ k, Real.exp (X i k - rowMax X i))

/-- Embedding of misc.softmax: `exp(X - log_sum_exp(X)[:, None])`. -/
noncomputable def softmax {n K : ℕ} (X : Fin n → Fin (K + 1) → ℝ) (i : Fin n)
    (j : Fin (K + 1)) : ℝ :=
  Real.exp (X i j - log_sum_exp X i)

/-- Modelled from the spec: the forward pass behind predict_proba ends with
the Softmax layer (the activators and containers sources are not in the
repository), so on the final layer scores the returned probabilities are the
stable row-wise softmax. -/
noncomputable def predict_proba {n K : ℕ} (scores : Fin n → Fin (K + 1) → ℝ) :
    Fin n → Fin (K + 1) → ℝ :=
  softmax scores

lemma softmax_eq_ref {n K : ℕ} (X : Fin n → Fin (K + 1) → ℝ) (i : Fin n) (j : Fin (K + 1)) :
    softmax X i j = Real.exp (X i j) / ∑ k, Real.exp (X i k) := by
  have hS : (0 : ℝ) < ∑ k, Real.exp (X i k - rowMax X i) :=
    Finset.sum_pos (fun k _ => Real.exp_pos _) Finset.univ_nonempty
  have key : ∑ k, Real.exp (X i k) =
      Real.exp (rowMax X i) * ∑ k, Real.exp (X i k - rowMax X i) := by
    rw [Finset.mul_sum]
    refine Finset.sum_congr rfl (fun k _ => ?_)
    rw [← Real.exp_add]
    ring_nf
  unfold softmax log_sum_exp
  have harg : X i j - (rowMax X i + Real.log (∑ k, Real.exp (X i k - rowMax X i))) =
      (X i j - rowMax X i) - Real.log (∑ k, Real.exp (X i k - rowMax X i)) := by ring
  rw [harg, Real.exp_sub, Real.exp_log hS, Real.exp_sub, key, div_div]

/-- C3: the numerically stable row-wise softmax equals the reference softmax
exp(X[i,j]) / sum_k exp(X[i,k]); every entry of predict_proba lies in [0, 1]
and every row sums to 1, so predict_proba is row stochastic. -/
theorem softmax_row_stochastic {n K : ℕ} (X : Fin n → Fin (K + 1) → ℝ) :
    (∀ i j, softmax X i j = Real.exp (X i j) / ∑ k, Real.exp (X i k)) ∧
    (∀ i j, 0 ≤ predict_proba X i j ∧ predict_proba X i j ≤ 1) ∧
    (∀ i, ∑ j, predict_proba X i j = 1) := by
  have hT : ∀ i : Fin n, (0 : ℝ) < ∑ k, Real.exp (X i k) :=
    fun i => Finset.sum_pos (fun k _ => Real.exp_pos _) Finset.univ_nonempty
  refine ⟨fun i j => softmax_eq_ref X i j, fun i j => ?_, fun i => ?_⟩
  · unfold predict_proba
    rw [softmax_eq_ref]
    constructor
    · exact div_nonneg (Real.exp_pos _).le (hT i).le
    · exact (div_le_one (hT i)).mpr
        (Finset.single_le_sum (fun k _ => (Real.exp_pos (X i k)).le) (Finset.mem_univ j))
  · unfold predict_proba
    calc ∑ j, softmax X i j = ∑ j, Real.exp (X i j) / ∑ k, Real.exp (X i k) :=
          Finset.sum_congr rfl (fun j _ => softmax_eq_ref X i j)
      _ = (∑ j, Real.exp (X i j)) / ∑ k, Real.exp (X i k) := by rw [Finset.sum_div]
      _ = 1 := div_self (hT i).ne'

/-! ### The operation trace of one fit call -/

/-- Operations the batch loop of MLPClassifier.fit performs on the model and
the loss, tagged with the batch they run on. -/
inductive NNEvent where
  | modelFprop (b : ℕ)
  | lossFprop (b : ℕ)
  | lossBprop (b : ℕ)
  | modelBprop (b : ℕ)
  | modelUpdate (b : ℕ)
deriving DecidableEq, Repr

/-- Batch an event runs on. -/
def evBatch : NNEvent → ℕ
  | .modelFprop b => b
  | .lossFprop b => b
  | .lossBprop b => b
  | .modelBprop b => b
  | .modelUpdate b => b

/-- Events of one iteration of the batch loop, in source order: model.fprop,
loss.fprop accumulated into total_cost, loss.fprop again in the unconditional
reporting print, loss.bprop, model.bprop, model.update. -/
def batchTrace (b : ℕ) : List NNEvent :=
  [.modelFprop b, .lossFprop b, .lossFprop b, .lossBprop b, .modelBprop b, .modelUpdate b]

/-- Concatenated trace of a sequence of batch steps. -/
def traceOf (bs : List ℕ) : List NNEvent := (bs.map batchTrace).flatten

/-- Full trace of one fit call: n_epochs repetitions of the per-epoch batch
sequence 0, 1, ..., nBatches - 1. -/
def mlpFitTrace (n_epochs nBatches : ℕ) : List NNEvent :=
  traceOf (((List.range n_epochs).map (fun _ => List.range nBatches)).flatten)

lemma traceOf_cons (b0 : ℕ) (bs : List ℕ) :
    traceOf (b0 :: bs) = batchTrace b0 ++ traceOf bs := by
  simp [traceOf]

lemma traceOf_fprop_window (bs : List ℕ) :
    ∀ k b, (traceOf bs)[k]? = some (.modelFprop b) →
      (traceOf bs)[k + 1]? = some (.lossFprop b) ∧
      (traceOf bs)[k + 2]? = some (.lossFprop b) ∧
      (traceOf bs)[k + 3]? = some (.lossBprop b) ∧
      (traceOf bs)[k + 4]? = some (.modelBprop b) ∧
      (traceOf bs)[k + 5]? = some (.modelUpdate b) ∧
      ∀ j b2, k < j → j < k + 4 → (traceOf bs)[j]? ≠ some (.modelFprop b2) := by
  induction bs with
  | nil =>
      intro k b h
      simp [traceOf] at h
  | cons b0 bs ih =>
      intro k b h
      rw [traceOf_cons] at h ⊢
      by_cases hk : k < 6
      · have hb : k = 0 ∧ b = b0 := by
          interval_cases k <;> simp [batchTrace] at h <;> simp [h]
        obtain ⟨hk0, hbb⟩ := hb
        subst hk0; subst hbb
        refine ⟨by simp [batchTrace], by simp [batchTrace], by simp [batchTrace],
          by simp [batchTrace], by simp [batchTrace], ?_⟩
        intro j b2 hj1 hj2
        interval_cases j <;> simp [batchTrace]
      · have hlen : (batchTrace b0).length = 6 := rfl
        have hk6 : 6 ≤ k := by omega
        rw [List.getElem?_append_right (by omega)] at h
        have h2 := ih (k - 6) b (by simpa [hlen] using h)
        have conv : ∀ i, (batchTrace b0 ++ traceOf bs)[k + i]? = (traceOf bs)[k - 6 + i]? := by
          intro i
          rw [List.getElem?_append_right (by omega)]
          congr 1
          omega
        refine ⟨?_, ?_, ?_, ?_, ?_, ?_⟩
        · rw [conv 1]; exact h2.1
        · rw [conv 2]; exact h2.2.1
        · rw [conv 3]; exact h2.2.2.1
        · rw [conv 4]; exact h2.2.2.2.1
        · rw [conv 5]; exact h2.2.2.2.2.1
        · intro j b2 hj1 hj2
          rw [List.getElem?_append_right (by omega)]
          have := h2.2.2.2.2.2 (j - 6) b2 (by omega) (by omega)
          simpa [hlen] using this

/-- C6: the five claimed operations occur in the claimed relative order
within every batch step (the trace additionally holds the reporting
loss.fprop of the print statement between the accumulating loss.fprop and
loss.bprop), every event of a batch step runs on that same batch, and no
other model forward pass occurs between a batch forward pass and its
backward pass anywhere in the fit trace. -/
theorem mlp_batch_step_order (n_epochs nBatches : ℕ) :
    (∀ b, [NNEvent.modelFprop b, NNEvent.lossFprop b, NNEvent.lossBprop b,
        NNEvent.modelBprop b, NNEvent.modelUpdate b].Sublist (batchTrace b) ∧
      ∀ e ∈ batchTrace b, evBatch e = b) ∧
    (∀ k b, (mlpFitTrace n_epochs nBatches)[k]? = some (NNEvent.modelFprop b) →
      (mlpFitTrace n_epochs nBatches)[k + 1]? = some (NNEvent.lossFprop b) ∧
      (mlpFitTrace n_epochs nBatches)[k + 2]? = some (NNEvent.lossFprop b) ∧
      (mlpFitTrace n_epochs nBatches)[k + 3]? = some (NNEvent.lossBprop b) ∧
      (mlpFitTrace n_epochs nBatches)[k + 4]? = some (NNEvent.modelBprop b) ∧
      (mlpFitTrace n_epochs nBatches)[k + 5]? = some (NNEvent.modelUpdate b) ∧
      ∀ j b2, k < j → j < k + 4 →
        (mlpFitTrace n_epochs nBatches)[j]? ≠ some (NNEvent.modelFprop b2)) := by
  constructor
  · intro b
    constructor
    · exact .cons₂ _ (.cons₂ _ (.cons _ (.cons₂ _ (.cons₂ _ (.cons₂ _ .slnil)))))
    · intro e he
      simp only [batchTrace, List.mem_cons, List.not_mem_nil, or_false] at he
      rcases he with rfl | rfl | rfl | rfl | rfl | rfl <;> rfl
  · intro k b h
    exact traceOf_fprop_window _ k b h

/-- Witness for C6 on a one-epoch, one-batch trace. -/
theorem mlp_batch_step_order_witness :
    (mlpFitTrace 1 1)[0 + 1]? = some (NNEvent.lossFprop 0) ∧
    (mlpFitTrace 1 1)[0 + 2]? = some (NNEvent.lossFprop 0) ∧
    (mlpFitTrace 1 1)[0 + 3]? = some (NNEvent.lossBprop 0) ∧
    (mlpFitTrace 1 1)[0 + 4]? = some (NNEvent.modelBprop 0) ∧
    (mlpFitTrace 1 1)[0 + 5]? = some (NNEvent.modelUpdate 0) ∧
    ∀ j b2, 0 < j → j < 0 + 4 → (mlpFitTrace 1 1)[j]? ≠ some (NNEvent.modelFprop b2) :=
  (mlp_batch_step_order 1 1).2 0 0 (by decide)

/-! ### misc.train_test_split -/

/-- Embedding of the Python int() conversion: truncation toward zero. -/
def pyInt (q : ℚ) : ℤ := if 0 ≤ q then ⌊q⌋ else ⌈q⌉

/-- Embedding of misc.train_test_split. The value drawn by
np.random.permutation(orig_size) after np.random.seed(random_state) is
passed explicitly as perm; its contract is being a permutation of
range orig_size. -/
def train_test_split {α β : Type} [Inhabited α] [Inhabited β]
    (X : List α) (y : List β) (test_size : ℚ) (perm : List ℕ) :
    Except Err (List α × List α × List β × List β) :=
  if X.length ≠ y.length then
    .error (.assertionError "X, y have mismatched lengths")
  else
    let orig_size := X.length
    let train_size := (pyInt ((orig_size : ℚ) * (1 - test_size))).toNat
    let train_indices := perm.take train_size
    let test_indices := perm.drop train_size
    .ok (train_indices.map (fun i => X.getD i default),
         test_indices.map (fun i => X.getD i default),
         train_indices.map (fun i => y.getD i default),
         test_indices.map (fun i => y.getD i default))

lemma map_getD_range {α : Type} [Inhabited α] (l : List α) :
    (List.range l.length).map (fun i => l.getD i default) = l := by
  induction l with
  | nil => rfl
  | cons a l ih =>
      rw [List.length_cons, List.range_succ_eq_map]
      simp only [List.map_cons, List.map_map]
      refine congrArg₂ List.cons rfl ?_
      calc List.map ((fun i => (a :: l).getD i default) ∘ Nat.succ) (List.range l.length)
          = List.map (fun i => l.getD i default) (List.range l.length) :=
            List.map_congr_left (fun i _ => rfl)
        _ = l := ih

/-- C9: for matching lengths and a test size in [0, 1], train_test_split
returns a train split of exactly floor(n * (1 - test_size)) rows, a test
split of the remaining rows, and the two splits together are a permutation
of the input rows, so every sample lands in exactly one split. -/
theorem train_test_split_spec {α β : Type} [Inhabited α] [Inhabited β]
    (X : List α) (y : List β) (t : ℚ) (perm : List ℕ)
    (hlen : X.length = y.length) (ht0 : 0 ≤ t) (ht1 : t ≤ 1)
    (hperm : perm.Perm (List.range X.length)) :
    ∃ Xtr Xte ytr yte,
      train_test_split X y t perm = .ok (Xtr, Xte, ytr, yte) ∧
      (Xtr.length : ℤ) = ⌊(X.length : ℚ) * (1 - t)⌋ ∧
      Xte.length = X.length - Xtr.length ∧
      ytr.length = Xtr.length ∧ yte.length = Xte.length ∧
      (Xtr ++ Xte).Perm X ∧ (ytr ++ yte).Perm y := by
  have hnn : (0 : ℚ) ≤ (X.length : ℚ) * (1 - t) := by
    have : (0 : ℚ) ≤ (X.length : ℚ) := by positivity
    nlinarith
  have hpy : pyInt ((X.length : ℚ) * (1 - t)) = ⌊(X.length : ℚ) * (1 - t)⌋ := by
    unfold pyInt
    rw [if_pos hnn]
  have hfl0 : 0 ≤ ⌊(X.length : ℚ) * (1 - t)⌋ := Int.floor_nonneg.mpr hnn
  have hfln : ⌊(X.length : ℚ) * (1 - t)⌋ ≤ (X.length : ℤ) := by
    have hle : (X.length : ℚ) * (1 - t) ≤ (X.length : ℚ) := by nlinarith
    calc ⌊(X.length : ℚ) * (1 - t)⌋ ≤ ⌊(X.length : ℚ)⌋ := Int.floor_le_floor hle
      _ = (X.length : ℤ) := Int.floor_natCast _
  set k := (pyInt ((X.length : ℚ) * (1 - t))).toNat with hk
  have hkInt : (k : ℤ) = ⌊(X.length : ℚ) * (1 - t)⌋ := by
    rw [hk, hpy, Int.toNat_of_nonneg hfl0]
  have hkn : k ≤ X.length := by
    have : (k : ℤ) ≤ (X.length : ℤ) := hkInt ▸ hfln
    exact_mod_cast this
  have hplen : perm.length = X.length := by rw [hperm.length_eq, List.length_range]
  have hsplit : train_test_split X y t perm =
      .ok ((perm.take k).map (fun i => X.getD i default),
           (perm.drop k).map (fun i => X.getD i default),
           (perm.take k).map (fun i => y.getD i default),
           (perm.drop k).map (fun i => y.getD i default)) := by
    unfold train_test_split
    rw [if_neg (by simp [hlen])]
  have htr_len : ((perm.take k).map (fun i => X.getD i default)).length = k := by
    rw [List.length_map, List.length_take, hplen, min_eq_left hkn]
  have hXperm : ((perm.take k).map (fun i => X.getD i default) ++
      (perm.drop k).map (fun i => X.getD i default)).Perm X := by
    rw [← List.map_append, List.take_append_drop]
    have h1 := hperm.map (fun i => X.getD i default)
    rw [map_getD_range X] at h1
    exact h1
  have hyperm : ((perm.take k).map (fun i => y.getD i default) ++
      (perm.drop k).map (fun i => y.getD i default)).Perm y := by
    rw [← List.map_append, List.take_append_drop]
    have h1 := hperm.map (fun i => y.getD i default)
    rw [hlen, map_getD_range y] at h1
    exact h1
  refine ⟨_, _, _, _, hsplit, ?_, ?_, ?_, ?_, hXperm, hyperm⟩
  · rw [htr_len, hkInt]
  · rw [htr_len, List.length_map, List.length_drop, hplen]
  · rw [htr_len, List.length_map, List.length_take, hplen, min_eq_left hkn]
  · rw [List.length_map, List.length_drop, hplen, List.length_map, List.length_drop, hplen]

/-- Witness for C9 at concrete inputs. -/
theorem train_test_split_spec_witness :
    ∃ Xtr Xte ytr yte,
      train_test_split ([10, 20, 30, 40] : List ℤ) ([5, 6, 7, 8] : List ℤ)
          (1 / 4) [2, 0, 3, 1] = .ok (Xtr, Xte, ytr, yte) ∧
      (Xtr.length : ℤ) = ⌊(([10, 20, 30, 40] : List ℤ).length : ℚ) * (1 - 1 / 4)⌋ ∧
      Xte.length = ([10, 20, 30, 40] : List ℤ).length - Xtr.length ∧
      ytr.length = Xtr.length ∧ yte.length = Xte.length ∧
      (Xtr ++ Xte).Perm [10, 20, 30, 40] ∧ (ytr ++ yte).Perm [5, 6, 7, 8] :=
  train_test_split_spec [10, 20, 30, 40] [5, 6, 7, 8] (1 / 4) [2, 0, 3, 1]
    (by decide) (by norm_num) (by norm_num) (by decide)

/-! ### misc.make_blobs -/

/-- Embedding of np.random.uniform with a two-element size tuple whose row
count holds an arbitrary Python value: numpy rejects None as a dimension
with a TypeError; the drawn values themselves come from the draw oracle. -/
def np_random_uniform (draw : ℕ → ℕ → List (List ℚ)) (low high : ℚ)
    (rows : Option ℕ) (cols : ℕ) : Except Err (List (List ℚ)) :=
  match rows with
  | none => .error (.typeError "NoneType object cannot be interpreted as an index")
  | some r => .ok (draw r cols)

/-- Rows of Gaussian noise shifted by a center, `centers[i] + noise`. -/
def addNoise (c : List ℚ) (noise : List (List ℚ)) : List (List ℚ) :=
  noise.map (fun r => (c.zip r).map (fun p => p.1 + p.2))

/-- Blob generation of misc.make_blobs once the center matrix is fixed:
spread n_samples over the centers (the first n_samples mod n_centers centers
get one extra sample), draw the noisy points per center, then shuffle with
the permutation drawn from the global generator. -/
def blobsFromCenters (normalDraw : ℕ → ℕ → ℕ → List (List ℚ)) (perm : List ℕ)
    (n_samples : ℕ) (cs : List (List ℚ)) : List (List ℚ) × List ℕ :=
  let n_centers := cs.length
  let n_features := (cs.headD []).length
  let n_per := fun i => n_samples / n_centers + if i < n_samples % n_centers then 1 else 0
  let Xparts := (List.range n_centers).map
    (fun i => addNoise (cs.getD i []) (normalDraw i (n_per i) n_features))
  let Xall := Xparts.flatten
  let yall := ((List.range n_centers).map (fun i => List.replicate (n_per i) i)).flatten
  (perm.map (fun i => Xall.getD i []), perm.map (fun i => yall.getD i 0))

/-- Embedding of misc.make_blobs. In the branch for missing centers the
source passes the still-None variable `centers`, not n_centers, as the row
count of the uniform draw, so that draw is handed a None dimension. -/
def make_blobs (uniformDraw : ℕ → ℕ → List (List ℚ))
    (normalDraw : ℕ → ℕ → ℕ → List (List ℚ)) (perm : List ℕ)
    (n_samples n_features n_centers : ℕ) (centers : Option (List (List ℚ)))
    (cluster_std center_low center_high : ℚ) :
    Except Err (List (List ℚ) × List ℕ) :=
  match centers with
  | none =>
      match np_random_uniform uniformDraw center_low center_high none n_features with
      | .error e => .error e
      | .ok cs => .ok (blobsFromCenters normalDraw perm n_samples cs)
  | some cs => .ok (blobsFromCenters normalDraw perm n_samples cs)

/-- C10: every make_blobs call that leaves centers at its None default
raises a TypeError from the uniform draw and never returns normally. -/
theorem make_blobs_default_centers_raises (uniformDraw : ℕ → ℕ → List (List ℚ))
    (normalDraw : ℕ → ℕ → ℕ → List (List ℚ)) (perm : List ℕ)
    (n_samples n_features n_centers : ℕ) (cluster_std center_low center_high : ℚ) :
    make_blobs uniformDraw normalDraw perm n_samples n_features n_centers none
        cluster_std center_low center_high =
      .error (.typeError "NoneType object cannot be interpreted as an index") := rfl

end VanillaML
